import Mathlib

/-
Verification of the mealie excerpt: the Tag model (`mealie/db/models/recipe/tag.py`),
the about routes (`mealie/routes/app/app_about.py`), and the Rating Ledger described
by the specification (its implementation is outside the sampled sources; only its
integration tests are included, so the ledger is modelled from the spec).
-/

namespace Mealie

/-! ## Tag model, embedded from `mealie/db/models/recipe/tag.py` -/

structure Tag where
  name : String
  slug : String
deriving Repr, DecidableEq

/-- Embeds Python `str.strip()`: removes leading and trailing whitespace.
Defined structurally over the character list so that it evaluates. -/
def strip (s : String) : String :=
  ⟨((s.data.dropWhile Char.isWhitespace).reverse.dropWhile Char.isWhitespace).reverse⟩

/-- Embeds the SQLAlchemy validator `Tag.validate_name`: assignment of `name`
asserts `name != ""`; `none` models the failing assertion. -/
def validate_name (name : String) : Option String :=
  if name = "" then none else some name

/-- Embeds `Tag.__init__`: `self.name = name.strip()` (which fires the validator
on the stripped string) followed by `self.slug = slugify(self.name)`. The
external `slugify` collaborator is a parameter. `none` models the constructor
raising the validator assertion. -/
def Tag.init (slugify : String → String) (name : String) : Option Tag :=
  match validate_name (strip name) with
  | none => none
  | some n => some { name := n, slug := slugify n }

inductive TagError where
  | assertionFailed
deriving Repr, DecidableEq

/-- Embeds `Tag.get_ref`: returns `None` when the session is absent or the match
value is falsy (empty); otherwise queries the session for a tag whose slug is
`slugify match_value`, returning it when found and constructing a fresh
`Tag(name=match_value)` otherwise. The session is modelled as the list of Tag
rows visible to the query; `Except.error` models an uncaught exception from the
constructor. -/
def Tag.get_ref (slugify : String → String) (match_value : String)
    (session : Option (List Tag)) : Except TagError (Option Tag) :=
  match session with
  | none => .ok none
  | some tags =>
    if match_value = "" then .ok none
    else
      let slug := slugify match_value
      match tags.find? (fun t => t.slug == slug) with
      | some result => .ok (some result)
      | none =>
        match Tag.init slugify match_value with
        | some t => .ok (some t)
        | none => .error .assertionFailed

/-! ## About routes, embedded from `mealie/routes/app/app_about.py` -/

structure User where
  email : String
deriving Repr, DecidableEq

structure AppStartupInfo where
  is_first_login : Bool
deriving Repr, DecidableEq

/-- Embeds `get_startup_info`: `is_first_login` is true exactly when the query
`db.query(User).filter_by(email=settings._DEFAULT_EMAIL).count() > 0` holds.
The database session is modelled as the read-only list of User rows; the
handler performs no writes, which the embedding reflects by consuming the row
list as plain input. -/
def get_startup_info (default_email : String) (db_users : List User) : AppStartupInfo :=
  { is_first_login := decide (0 < (db_users.filter (fun u => u.email == default_email)).length) }

/-! ## Rating Ledger

Modelled from the spec: the ledger implementation is not part of the sampled
sources (only its integration tests under
`tests/integration_tests/user_recipe_tests/test_recipe_ratings.py` are), so the
data model and operations below follow sections 3 and 4.1 of the specification.
-/

/-- Modelled from the spec: a Rating row, composite-keyed by (user id, recipe
id), holding a nullable numeric rating and a favorite flag that reads as false
when never set. -/
structure RatingRow where
  userId : Nat
  recipeId : Nat
  rating : Option ℚ
  is_favorite : Bool
deriving Repr, DecidableEq

/-- Modelled from the spec: a Recipe, identified by an opaque id and a slug
unique within its owning group. -/
structure Recipe where
  rid : Nat
  slug : String
  groupId : Nat
  name : String
deriving Repr, DecidableEq

/-- Modelled from the spec: the ledger state is the recipe table together with
the Rating rows. -/
structure Ledger where
  recipes : List Recipe
  ratings : List RatingRow
deriving Repr, DecidableEq

inductive LedgerError where
  | notFound
deriving Repr, DecidableEq

/-- Modelled from the spec: recipe lookup by slug, scoped to the requester's
group. -/
def findRecipeBySlug (L : Ledger) (g : Nat) (slug : String) : Option Recipe :=
  L.recipes.find? (fun r => r.groupId == g && r.slug == slug)

def recipeExists (L : Ledger) (rid : Nat) : Bool :=
  L.recipes.any (fun r => r.rid == rid)

def findRating (L : Ledger) (u rid : Nat) : Option RatingRow :=
  L.ratings.find? (fun row => row.userId == u && row.recipeId == rid)

/-- Modelled from the spec: a partial-update body; `none` in a field stands for
the field being omitted from the patch or supplied as null, which leaves the
stored field unchanged. -/
structure RatingPatch where
  rating : Option ℚ
  is_favorite : Option Bool
deriving Repr, DecidableEq

/-- Modelled from the spec: merging a patch into a stored row; an absent/null
field leaves the stored field unchanged, a supplied field (including
`rating = 0`) overwrites it. -/
def applyPatch (row : RatingRow) (p : RatingPatch) : RatingRow :=
  { row with
    rating := match p.rating with | some v => some v | none => row.rating
    is_favorite := match p.is_favorite with | some b => b | none => row.is_favorite }

/-- Modelled from the spec: a Rating row is created implicitly on first write
for a (user, recipe) pair, with rating null and favorite false. -/
def newRow (u rid : Nat) : RatingRow :=
  { userId := u, recipeId := rid, rating := none, is_favorite := false }

/-- Modelled from the spec: atomic get-or-create followed by a merge; returns
the new ledger and the updated row view. -/
def upsertRating (L : Ledger) (u rid : Nat) (p : RatingPatch) : Ledger × RatingRow :=
  match findRating L u rid with
  | some row =>
    ({ L with ratings := L.ratings.map (fun x =>
        if x.userId == u && x.recipeId == rid then applyPatch x p else x) },
     applyPatch row p)
  | none =>
    let row := applyPatch (newRow u rid) p
    ({ L with ratings := row :: L.ratings }, row)

/-- Modelled from the spec: `update_rating(user_id, recipe_slug, patch)` with
partial-update semantics; fails with NotFound when the slug does not name a
recipe in the requester's group. -/
def update_rating (L : Ledger) (u g : Nat) (slug : String) (p : RatingPatch) :
    Except LedgerError (Ledger × RatingRow) :=
  match findRecipeBySlug L g slug with
  | none => .error .notFound
  | some r => .ok (upsertRating L u r.rid p)

/-- Modelled from the spec: `set_favorite` creates the row if absent (rating
null) and sets the favorite flag, leaving any stored rating untouched. -/
def set_favorite (L : Ledger) (u g : Nat) (slug : String) (fav : Bool) :
    Except LedgerError (Ledger × RatingRow) :=
  match findRecipeBySlug L g slug with
  | none => .error .notFound
  | some r => .ok (upsertRating L u r.rid { rating := none, is_favorite := some fav })

/-- Modelled from the spec: `clear_favorite`, the symmetric removal; the row is
kept with favorite false (the spec leaves row deletion optional). -/
def clear_favorite (L : Ledger) (u g : Nat) (slug : String) :
    Except LedgerError Ledger :=
  match findRecipeBySlug L g slug with
  | none => .error .notFound
  | some r => .ok (upsertRating L u r.rid { rating := none, is_favorite := some false }).1

/-- Modelled from the spec: `get_rating(user_id, recipe_id)`; NotFound when the
recipe does not exist or when no Rating row exists for the pair. -/
def get_rating (L : Ledger) (u rid : Nat) : Except LedgerError RatingRow :=
  if recipeExists L rid then
    match findRating L u rid with
    | some row => .ok row
    | none => .error .notFound
  else .error .notFound

/-- Modelled from the spec: `list_ratings(user_id, filter)`; all rows of the
user, optionally restricted to favorites. -/
def list_ratings (L : Ledger) (u : Nat) (favoritesOnly : Bool) : List RatingRow :=
  L.ratings.filter (fun row => row.userId == u && (!favoritesOnly || row.is_favorite))

/-- Modelled from the spec: the non-null rating values across all users for a
recipe. -/
def ratingValues (L : Ledger) (rid : Nat) : List ℚ :=
  (L.ratings.filter (fun row => row.recipeId == rid)).filterMap (fun row => row.rating)

/-- Modelled from the spec: `aggregate_rating(recipe_id)`, the mean of all
non-null rating values, null when none exist; derived, never stored. -/
def aggregate_rating (L : Ledger) (rid : Nat) : Option ℚ :=
  let vals := ratingValues L rid
  if vals.isEmpty then none else some (vals.sum / (vals.length : ℚ))

/-- Modelled from the spec: deleting a Recipe deletes all its Rating records
(cascade). -/
def delete_recipe (L : Ledger) (rid : Nat) : Ledger :=
  { recipes := L.recipes.filter (fun r => r.rid != rid),
    ratings := L.ratings.filter (fun row => row.recipeId != rid) }

/-- Modelled from the spec: the public representation of a recipe embeds the
derived aggregate rating read-only. -/
structure RecipeView where
  rid : Nat
  slug : String
  name : String
  rating : Option ℚ
deriving Repr, DecidableEq

/-- Modelled from the spec: a recipe PATCH body; `rating` may be present but
must be silently ignored, `name` stands for the ordinary updatable fields. -/
structure RecipePatch where
  name : Option String
  rating : Option ℚ
deriving Repr, DecidableEq

def recipeView (L : Ledger) (r : Recipe) : RecipeView :=
  { rid := r.rid, slug := r.slug, name := r.name, rating := aggregate_rating L r.rid }

def get_recipe (L : Ledger) (g : Nat) (slug : String) : Except LedgerError RecipeView :=
  match findRecipeBySlug L g slug with
  | none => .error .notFound
  | some r => .ok (recipeView L r)

/-- Modelled from the spec: PATCH on a recipe applies the updatable fields and
silently ignores the `rating` field of the body; the update still succeeds and
the response embeds the derived aggregate. -/
def patch_recipe (L : Ledger) (g : Nat) (slug : String) (p : RecipePatch) :
    Except LedgerError (Ledger × RecipeView) :=
  match findRecipeBySlug L g slug with
  | none => .error .notFound
  | some r0 =>
    let L1 : Ledger := { L with recipes := L.recipes.map (fun r =>
      if r.groupId == g && r.slug == slug then
        { r with name := match p.name with | some n => n | none => r.name }
      else r) }
    let r1 : Recipe := { r0 with name := match p.name with | some n => n | none => r0.name }
    .ok (L1, recipeView L1 r1)

/-- Scenario helper: favorite a list of slugs in order, stopping at the first
failure. -/
def favoriteAll (u g : Nat) : Ledger → List String → Except LedgerError Ledger
  | L, [] => .ok L
  | L, s :: ss =>
    match set_favorite L u g s true with
    | .error e => .error e
    | .ok (L1, _) => favoriteAll u g L1 ss

/-- Scenario helper: remove the favorite on a list of slugs in order. -/
def unfavoriteAll (u g : Nat) : Ledger → List String → Except LedgerError Ledger
  | L, [] => .ok L
  | L, s :: ss =>
    match clear_favorite L u g s with
    | .error e => .error e
    | .ok L1 => unfavoriteAll u g L1 ss

/-- Recipe ids reported by the favorites-only listing. -/
def favRecipeIds (L : Ledger) (u : Nat) : List Nat :=
  (list_ratings L u true).map (fun row => row.recipeId)

/-- Rating rows of one user. -/
def rowsFor (L : Ledger) (u : Nat) : List RatingRow :=
  L.ratings.filter (fun row => row.userId == u)

/-- Invariant on one user's rows used in the favorites scenario: `favs` lists
the recipe ids currently marked favorite by the user, every id in `present`
has a row for the user, and the user has at most one row per recipe (the
spec's at-most-one-Rating-per-pair invariant restricted to this user). -/
def UserRowsOK (L : Ledger) (u : Nat) (favs present : List Nat) : Prop :=
  (∀ row ∈ L.ratings, row.userId = u → (row.is_favorite = true ↔ row.recipeId ∈ favs)) ∧
  (∀ rid ∈ present, ∃ row ∈ L.ratings, row.userId = u ∧ row.recipeId = rid) ∧
  ((rowsFor L u).map (fun row => row.recipeId)).Nodup

/-! ## Generic helper lemmas -/

theorem find?_map_ite {α : Type} (q : α → Bool) (f : α → α)
    (hf : ∀ x, q (f x) = q x) :
    ∀ xs : List α,
      (xs.map (fun x => if q x then f x else x)).find? q = (xs.find? q).map f
  | [] => rfl
  | x :: xs => by
    by_cases hx : q x = true
    · rw [List.map_cons, if_pos hx, List.find?_cons_of_pos _ (by rw [hf]; exact hx),
        List.find?_cons_of_pos _ hx, Option.map_some']
    · rw [List.map_cons, if_neg hx, List.find?_cons_of_neg _ hx,
        List.find?_cons_of_neg _ hx, find?_map_ite q f hf xs]

/-! ## C8: Tag construction -/

/-- C8: for every string whose whitespace-stripped form is nonempty, the Tag
constructor stores `name = s.strip()` and `slug = slugify(s.strip())`; for a
string whose stripped form is empty, construction fails the name validator's
assertion instead of producing a Tag. -/
theorem tag_init_spec (slugify : String → String) (s : String) :
    (strip s ≠ "" → Tag.init slugify s = some { name := strip s, slug := slugify (strip s) }) ∧
    (strip s = "" → Tag.init slugify s = none) := by
  constructor
  · intro h
    simp [Tag.init, validate_name, h]
  · intro h
    simp [Tag.init, validate_name, h]

theorem tag_init_spec_witness :
    Tag.init (fun s => s) " a " = some { name := "a", slug := "a" } ∧
    Tag.init (fun s => s) "  " = none := by
  constructor
  · exact (tag_init_spec (fun s => s) " a ").1 (by decide)
  · exact (tag_init_spec (fun s => s) "  ").2 (by decide)

/-! ## C9: `Tag.get_ref` -/

/-- C9 counterexample: with a present session holding no tags and the truthy
whitespace-only match value `" "`, `Tag.get_ref` reaches the constructor,
whose validator assertion fails on the stripped empty name — it raises instead
of returning a newly constructed Tag as the claim states. -/
theorem get_ref_whitespace_raises :
    " " ≠ "" ∧
    Tag.get_ref (fun s => s) " " (some []) = .error TagError.assertionFailed := by
  constructor
  · decide
  · rfl

/-- C9 amended: `Tag.get_ref` returns None when the session is absent or the
match value is empty; otherwise it returns the existing Tag whose slug equals
`slugify match_value` when one exists, and when none exists it returns a newly
constructed `Tag(name=match_value)` (unpersisted) provided the stripped match
value is nonempty — when the match value is whitespace-only the constructor's
validator assertion fails instead. -/
theorem get_ref_spec (slugify : String → String) (mv : String) (tags : List Tag) :
    (Tag.get_ref slugify mv none = .ok none) ∧
    (Tag.get_ref slugify "" (some tags) = .ok none) ∧
    (∀ t, mv ≠ "" → tags.find? (fun x => x.slug == slugify mv) = some t →
      Tag.get_ref slugify mv (some tags) = .ok (some t)) ∧
    (mv ≠ "" → tags.find? (fun x => x.slug == slugify mv) = none → strip mv ≠ "" →
      Tag.get_ref slugify mv (some tags) =
        .ok (some { name := strip mv, slug := slugify (strip mv) })) ∧
    (mv ≠ "" → tags.find? (fun x => x.slug == slugify mv) = none → strip mv = "" →
      Tag.get_ref slugify mv (some tags) = .error TagError.assertionFailed) := by
  refine ⟨rfl, by simp [Tag.get_ref], ?_, ?_, ?_⟩
  · intro t hmv hfind
    simp [Tag.get_ref, hmv, hfind]
  · intro hmv hfind htrim
    simp [Tag.get_ref, hmv, hfind, Tag.init, validate_name, htrim]
  · intro hmv hfind htrim
    simp [Tag.get_ref, hmv, hfind, Tag.init, validate_name, htrim]

theorem get_ref_spec_witness :
    Tag.get_ref (fun s => s) "b" (some [{ name := "b", slug := "b" }]) =
      .ok (some { name := "b", slug := "b" }) ∧
    Tag.get_ref (fun s => s) "a" (some []) = .ok (some { name := "a", slug := "a" }) ∧
    Tag.get_ref (fun s => s) " " (some []) = .error TagError.assertionFailed := by
  refine ⟨?_, ?_, ?_⟩
  · exact (get_ref_spec (fun s => s) "b" [{ name := "b", slug := "b" }]).2.2.1
      { name := "b", slug := "b" } (by decide) (by decide)
  · exact (get_ref_spec (fun s => s) "a" []).2.2.2.1 (by decide) rfl (by decide)
  · exact (get_ref_spec (fun s => s) " " []).2.2.2.2 (by decide) rfl (by decide)

/-! ## C10: startup info -/

/-- C10: `get_startup_info` reports `is_first_login = true` exactly when at
least one User row carries the configured default email; the session is
consumed read-only, so the operation performs no writes. -/
theorem get_startup_info_spec (default_email : String) (db_users : List User) :
    (get_startup_info default_email db_users).is_first_login = true ↔
      ∃ u ∈ db_users, u.email = default_email := by
  simp only [get_startup_info, decide_eq_true_eq, List.length_pos, Ne,
    List.filter_eq_nil_iff]
  push_neg
  simp [beq_iff_eq]

/-! ## Ledger helper lemmas -/

theorem upsert_recipes (L : Ledger) (u rid : Nat) (p : RatingPatch) :
    (upsertRating L u rid p).1.recipes = L.recipes := by
  unfold upsertRating
  cases findRating L u rid <;> rfl

theorem upsert_row_of_found (L : Ledger) (u rid : Nat) (p : RatingPatch) (row : RatingRow)
    (h : findRating L u rid = some row) :
    (upsertRating L u rid p).2 = applyPatch row p := by
  unfold upsertRating
  rw [h]

theorem findRating_upsert (L : Ledger) (u rid : Nat) (p : RatingPatch) :
    findRating (upsertRating L u rid p).1 u rid = some (upsertRating L u rid p).2 := by
  unfold upsertRating
  cases h : findRating L u rid with
  | none =>
    show List.find? (fun row => row.userId == u && row.recipeId == rid)
        (applyPatch (newRow u rid) p :: L.ratings) = some (applyPatch (newRow u rid) p)
    exact List.find?_cons_of_pos _ (by simp [applyPatch, newRow])
  | some row =>
    show List.find? (fun x => x.userId == u && x.recipeId == rid)
        (L.ratings.map (fun x =>
          if x.userId == u && x.recipeId == rid then applyPatch x p else x))
        = some (applyPatch row p)
    rw [find?_map_ite (fun x => x.userId == u && x.recipeId == rid)
        (fun x => applyPatch x p) (fun x => rfl),
      show List.find? (fun row => row.userId == u && row.recipeId == rid) L.ratings
        = some row from h]
    rfl

theorem update_rating_eq_of_found (L : Ledger) (u g : Nat) (slug : String) (r : Recipe)
    (p : RatingPatch) (h : findRecipeBySlug L g slug = some r) :
    update_rating L u g slug p = .ok (upsertRating L u r.rid p) := by
  unfold update_rating
  rw [h]

/-! ## C1: partial updates preserve the unspecified field -/

/-- C1: for a (user, recipe) pair with an existing Rating row, update_rating
with a patch supplying only `rating` applies the rating and preserves the
stored `is_favorite`, and a patch supplying only `is_favorite` applies the
flag and preserves the stored rating; an absent field and an explicitly null
field are both `none` in the patch. -/
theorem update_rating_partial (L : Ledger) (u g : Nat) (slug : String)
    (r : Recipe) (row : RatingRow) (v : ℚ) (b : Bool)
    (hr : findRecipeBySlug L g slug = some r)
    (hrow : findRating L u r.rid = some row) :
    (∃ L1, update_rating L u g slug { rating := some v, is_favorite := none } =
        .ok (L1, { row with rating := some v }) ∧
      findRating L1 u r.rid = some { row with rating := some v }) ∧
    (∃ L2, update_rating L u g slug { rating := none, is_favorite := some b } =
        .ok (L2, { row with is_favorite := b }) ∧
      findRating L2 u r.rid = some { row with is_favorite := b }) := by
  constructor
  · have h2 : (upsertRating L u r.rid { rating := some v, is_favorite := none }).2 =
        { row with rating := some v } := by
      rw [upsert_row_of_found L u r.rid _ row hrow]
      rfl
    refine ⟨(upsertRating L u r.rid { rating := some v, is_favorite := none }).1, ?_, ?_⟩
    · rw [update_rating_eq_of_found L u g slug r _ hr, ← h2]
    · rw [findRating_upsert, h2]
  · have h2 : (upsertRating L u r.rid { rating := none, is_favorite := some b }).2 =
        { row with is_favorite := b } := by
      rw [upsert_row_of_found L u r.rid _ row hrow]
      rfl
    refine ⟨(upsertRating L u r.rid { rating := none, is_favorite := some b }).1, ?_, ?_⟩
    · rw [update_rating_eq_of_found L u g slug r _ hr, ← h2]
    · rw [findRating_upsert, h2]

theorem update_rating_partial_witness :
    (∃ L1, update_rating ⟨[⟨1, "a", 0, "x"⟩], [⟨7, 1, some 2, true⟩]⟩ 7 0 "a"
        { rating := some 3, is_favorite := none } = .ok (L1, ⟨7, 1, some 3, true⟩) ∧
      findRating L1 7 1 = some ⟨7, 1, some 3, true⟩) ∧
    (∃ L2, update_rating ⟨[⟨1, "a", 0, "x"⟩], [⟨7, 1, some 2, true⟩]⟩ 7 0 "a"
        { rating := none, is_favorite := some false } = .ok (L2, ⟨7, 1, some 2, false⟩) ∧
      findRating L2 7 1 = some ⟨7, 1, some 2, false⟩) := by
  exact update_rating_partial ⟨[⟨1, "a", 0, "x"⟩], [⟨7, 1, some 2, true⟩]⟩ 7 0 "a"
    ⟨1, "a", 0, "x"⟩ ⟨7, 1, some 2, true⟩ 3 false (by rfl) (by rfl)

/-! ## C2: recipe PATCH cannot change the aggregate rating -/

/-- C2: PATCH on an existing recipe succeeds for every body, including one
carrying a `rating` value, leaves the stored Rating rows (hence the derived
aggregate) unchanged, and both the PATCH response and a subsequent GET report
the aggregate computed from the Rating rows, not the supplied value. -/
theorem patch_recipe_rating_readonly (L : Ledger) (g : Nat) (slug : String) (r : Recipe)
    (p : RecipePatch) (hr : findRecipeBySlug L g slug = some r) :
    ∃ L1 view, patch_recipe L g slug p = .ok (L1, view) ∧
      L1.ratings = L.ratings ∧
      view.rating = aggregate_rating L r.rid ∧
      aggregate_rating L1 r.rid = aggregate_rating L r.rid ∧
      ∃ view2, get_recipe L1 g slug = .ok view2 ∧ view2.rating = aggregate_rating L r.rid := by
  simp only [patch_recipe, hr]
  refine ⟨_, _, rfl, rfl, rfl, rfl, ?_⟩
  have hfind : findRecipeBySlug
      ({ L with recipes := L.recipes.map (fun x =>
        if x.groupId == g && x.slug == slug then
          { x with name := match p.name with | some n => n | none => x.name }
        else x) } : Ledger) g slug =
      some { r with name := match p.name with | some n => n | none => r.name } := by
    show List.find? (fun x => x.groupId == g && x.slug == slug)
        (L.recipes.map (fun x =>
          if x.groupId == g && x.slug == slug then
            { x with name := match p.name with | some n => n | none => x.name }
          else x))
        = some { r with name := match p.name with | some n => n | none => r.name }
    rw [find?_map_ite (fun x : Recipe => x.groupId == g && x.slug == slug)
        (fun x : Recipe => { x with name := match p.name with | some n => n | none => x.name })
        (fun x => rfl),
      show List.find? (fun x => x.groupId == g && x.slug == slug) L.recipes = some r from hr]
    rfl
  simp only [get_recipe, hfind]
  exact ⟨_, rfl, rfl⟩

theorem patch_recipe_rating_readonly_witness :
    ∃ L1 view, patch_recipe ⟨[⟨1, "a", 0, "x"⟩], [⟨7, 1, some 4, false⟩]⟩ 0 "a"
        { name := some "y", rating := some 1 } = .ok (L1, view) ∧
      L1.ratings = [⟨7, 1, some 4, false⟩] ∧
      view.rating = aggregate_rating ⟨[⟨1, "a", 0, "x"⟩], [⟨7, 1, some 4, false⟩]⟩ 1 ∧
      aggregate_rating L1 1 = aggregate_rating ⟨[⟨1, "a", 0, "x"⟩], [⟨7, 1, some 4, false⟩]⟩ 1 ∧
      ∃ view2, get_recipe L1 0 "a" = .ok view2 ∧
        view2.rating = aggregate_rating ⟨[⟨1, "a", 0, "x"⟩], [⟨7, 1, some 4, false⟩]⟩ 1 := by
  exact patch_recipe_rating_readonly ⟨[⟨1, "a", 0, "x"⟩], [⟨7, 1, some 4, false⟩]⟩ 0 "a"
    ⟨1, "a", 0, "x"⟩ { name := some "y", rating := some 1 } (by rfl)

/-! ## C3: the aggregate is the mean of the non-null ratings -/

/-- C3: the derived aggregate equals the arithmetic mean of the non-null
rating values across all users' rows for the recipe and is null when none
exist; concretely, starting from a recipe with no rating rows, one user rating
5 and a second user rating 2 yields aggregate 7/2 = 3.5. -/
theorem aggregate_rating_mean (L : Ledger) (g u1 u2 rid0 : Nat) (slug : String) (r : Recipe)
    (hr : findRecipeBySlug L g slug = some r)
    (hempty : L.ratings.filter (fun row => row.recipeId == r.rid) = [])
    (husers : u1 ≠ u2) :
    (aggregate_rating L rid0 =
      if (ratingValues L rid0).isEmpty then none
      else some ((ratingValues L rid0).sum / ((ratingValues L rid0).length : ℚ))) ∧
    aggregate_rating L r.rid = none ∧
    (∃ L1 row1 L2 row2,
      update_rating L u1 g slug { rating := some 5, is_favorite := none } = .ok (L1, row1) ∧
      update_rating L1 u2 g slug { rating := some 2, is_favorite := none } = .ok (L2, row2) ∧
      aggregate_rating L2 r.rid = some (7 / 2)) := by
  have hnone : ∀ row ∈ L.ratings, (row.recipeId == r.rid) = false := by
    intro row hm
    have := List.filter_eq_nil_iff.mp hempty row hm
    simpa using this
  refine ⟨rfl, ?_, ?_⟩
  · simp [aggregate_rating, ratingValues, hempty]
  · have find1 : findRating L u1 r.rid = none := by
      apply List.find?_eq_none.mpr
      intro x hx
      simp [hnone x hx]
    have hup1 : upsertRating L u1 r.rid { rating := some 5, is_favorite := none } =
        ({ L with ratings := ⟨u1, r.rid, some 5, false⟩ :: L.ratings },
          ⟨u1, r.rid, some 5, false⟩) := by
      unfold upsertRating
      rw [find1]
      rfl
    have find2 : findRating ({ L with ratings := ⟨u1, r.rid, some 5, false⟩ :: L.ratings }
        : Ledger) u2 r.rid = none := by
      apply List.find?_eq_none.mpr
      intro x hx
      rcases List.mem_cons.mp hx with h | h
      · subst h
        simp [Nat.ne_of_lt]
        intro hu
        exact absurd hu husers
      · simp [hnone x h]
    have hup2 : upsertRating ({ L with ratings := ⟨u1, r.rid, some 5, false⟩ :: L.ratings }
        : Ledger) u2 r.rid { rating := some 2, is_favorite := none } =
        ({ L with ratings := ⟨u2, r.rid, some 2, false⟩ :: ⟨u1, r.rid, some 5, false⟩ ::
            L.ratings },
          ⟨u2, r.rid, some 2, false⟩) := by
      unfold upsertRating
      rw [find2]
      rfl
    have hr1 : findRecipeBySlug ({ L with ratings :=
        ⟨u1, r.rid, some 5, false⟩ :: L.ratings } : Ledger) g slug = some r := hr
    refine ⟨_, _, _, _,
      by rw [update_rating_eq_of_found L u1 g slug r _ hr, hup1],
      by rw [update_rating_eq_of_found _ u2 g slug r _ hr1, hup2], ?_⟩
    have hvals : ratingValues ({ L with ratings := ⟨u2, r.rid, some 2, false⟩ ::
        ⟨u1, r.rid, some 5, false⟩ :: L.ratings } : Ledger) r.rid = [2, 5] := by
      simp [ratingValues, List.filter_cons, hempty]
    simp [aggregate_rating, hvals]
    norm_num

theorem aggregate_rating_mean_witness :
    (aggregate_rating ⟨[⟨1, "a", 0, "x"⟩], []⟩ 1 =
      if (ratingValues ⟨[⟨1, "a", 0, "x"⟩], []⟩ 1).isEmpty then none
      else some ((ratingValues ⟨[⟨1, "a", 0, "x"⟩], []⟩ 1).sum /
        ((ratingValues ⟨[⟨1, "a", 0, "x"⟩], []⟩ 1).length : ℚ))) ∧
    aggregate_rating ⟨[⟨1, "a", 0, "x"⟩], []⟩ 1 = none ∧
    (∃ L1 row1 L2 row2,
      update_rating ⟨[⟨1, "a", 0, "x"⟩], []⟩ 3 0 "a"
        { rating := some 5, is_favorite := none } = .ok (L1, row1) ∧
      update_rating L1 4 0 "a" { rating := some 2, is_favorite := none } = .ok (L2, row2) ∧
      aggregate_rating L2 1 = some (7 / 2)) := by
  exact aggregate_rating_mean ⟨[⟨1, "a", 0, "x"⟩], []⟩ 0 3 4 1 "a" ⟨1, "a", 0, "x"⟩
    (by rfl) (by rfl) (by decide)

/-! ## C4: rating zero is stored and read back as zero -/

/-- C4: update_rating with rating = 0 stores 0 and a subsequent single-rating
read returns a row carrying rating 0 — zero is a distinct stored value, also
when it overwrites a previously stored non-zero rating (the prior ledger state
is arbitrary). -/
theorem update_rating_zero (L : Ledger) (u g : Nat) (slug : String) (r : Recipe)
    (hr : findRecipeBySlug L g slug = some r) :
    ∃ L1 row1, update_rating L u g slug { rating := some 0, is_favorite := none } =
        .ok (L1, row1) ∧
      row1.rating = some 0 ∧
      get_rating L1 u r.rid = .ok row1 := by
  refine ⟨(upsertRating L u r.rid { rating := some 0, is_favorite := none }).1,
    (upsertRating L u r.rid { rating := some 0, is_favorite := none }).2, ?_, ?_, ?_⟩
  · rw [update_rating_eq_of_found L u g slug r _ hr]
  · unfold upsertRating
    cases h : findRating L u r.rid with
    | none => rfl
    | some row => rfl
  · have hex : recipeExists (upsertRating L u r.rid
        { rating := some 0, is_favorite := none }).1 r.rid = true := by
      unfold recipeExists
      rw [upsert_recipes]
      exact List.any_eq_true.mpr ⟨r, List.mem_of_find?_eq_some hr, by simp⟩
    simp [get_rating, hex, findRating_upsert]

theorem update_rating_zero_witness :
    ∃ L1 row1, update_rating ⟨[⟨1, "a", 0, "x"⟩], [⟨7, 1, some 4, true⟩]⟩ 7 0 "a"
        { rating := some 0, is_favorite := none } = .ok (L1, row1) ∧
      row1.rating = some 0 ∧
      get_rating L1 7 1 = .ok row1 := by
  exact update_rating_zero ⟨[⟨1, "a", 0, "x"⟩], [⟨7, 1, some 4, true⟩]⟩ 7 0 "a"
    ⟨1, "a", 0, "x"⟩ (by rfl)

/-! ## C5: unknown slug gives NotFound for every write operation -/

/-- C5: when the slug names no recipe in the requester's group, set_favorite,
clear_favorite and update_rating all fail with NotFound, whatever patch fields
are supplied; a failing operation produces no successor ledger, so the state
is unchanged. -/
theorem ops_unknown_slug_not_found (L : Ledger) (u g : Nat) (slug : String)
    (fav : Bool) (p : RatingPatch)
    (hmiss : findRecipeBySlug L g slug = none) :
    set_favorite L u g slug fav = .error .notFound ∧
    clear_favorite L u g slug = .error .notFound ∧
    update_rating L u g slug p = .error .notFound := by
  refine ⟨?_, ?_, ?_⟩ <;> simp [set_favorite, clear_favorite, update_rating, hmiss]

theorem ops_unknown_slug_not_found_witness :
    set_favorite ⟨[⟨1, "a", 0, "x"⟩], []⟩ 7 0 "nope" true = .error .notFound ∧
    clear_favorite ⟨[⟨1, "a", 0, "x"⟩], []⟩ 7 0 "nope" = .error .notFound ∧
    update_rating ⟨[⟨1, "a", 0, "x"⟩], []⟩ 7 0 "nope"
      { rating := some 3, is_favorite := some true } = .error .notFound := by
  exact ops_unknown_slug_not_found ⟨[⟨1, "a", 0, "x"⟩], []⟩ 7 0 "nope" true
    { rating := some 3, is_favorite := some true } (by rfl)

/-! ## C6: recipe deletion cascades to the rating rows -/

/-- C6: deleting a recipe deletes all its Rating rows: afterwards no row for
the recipe remains for any user, get_rating returns NotFound, and the
invariant that no Rating row refers to a non-existent recipe is preserved. -/
theorem delete_recipe_cascades (L : Ledger) (u rid : Nat) :
    findRating (delete_recipe L rid) u rid = none ∧
    get_rating (delete_recipe L rid) u rid = .error .notFound ∧
    ((∀ row ∈ L.ratings, recipeExists L row.recipeId = true) →
      ∀ row ∈ (delete_recipe L rid).ratings,
        recipeExists (delete_recipe L rid) row.recipeId = true) := by
  have hfind : findRating (delete_recipe L rid) u rid = none := by
    apply List.find?_eq_none.mpr
    intro x hx
    simp only [delete_recipe, List.mem_filter] at hx
    have : x.recipeId ≠ rid := by simpa using hx.2
    simp [this]
  have hex : ¬ (recipeExists (delete_recipe L rid) rid = true) := by
    simp only [recipeExists, List.any_eq_true]
    rintro ⟨x, hx, hxr⟩
    simp only [delete_recipe, List.mem_filter] at hx
    have h1 : x.rid ≠ rid := by simpa using hx.2
    have h2 : x.rid = rid := by simpa using hxr
    exact h1 h2
  refine ⟨hfind, by simp [get_rating, hex], ?_⟩
  intro hinv row hrow
  have hrow2 := hrow
  simp only [delete_recipe, List.mem_filter] at hrow2
  have hne : row.recipeId ≠ rid := by simpa using hrow2.2
  have hex2 := hinv row hrow2.1
  simp only [recipeExists, List.any_eq_true] at hex2 ⊢
  obtain ⟨rec, hrecmem, hrecid⟩ := hex2
  have hrid : rec.rid = row.recipeId := by simpa using hrecid
  refine ⟨rec, ?_, hrecid⟩
  simp only [delete_recipe, List.mem_filter]
  exact ⟨hrecmem, by simp [hrid, hne]⟩

theorem delete_recipe_cascades_witness :
    findRating (delete_recipe ⟨[⟨1, "a", 0, "x"⟩], [⟨5, 1, some 3, true⟩]⟩ 1) 5 1 = none ∧
    get_rating (delete_recipe ⟨[⟨1, "a", 0, "x"⟩], [⟨5, 1, some 3, true⟩]⟩ 1) 5 1 =
      .error .notFound ∧
    (∀ row ∈ (delete_recipe ⟨[⟨1, "a", 0, "x"⟩], [⟨5, 1, some 3, true⟩]⟩ 1).ratings,
      recipeExists (delete_recipe ⟨[⟨1, "a", 0, "x"⟩], [⟨5, 1, some 3, true⟩]⟩ 1)
        row.recipeId = true) := by
  have h := delete_recipe_cascades ⟨[⟨1, "a", 0, "x"⟩], [⟨5, 1, some 3, true⟩]⟩ 5 1
  exact ⟨h.1, h.2.1, h.2.2 (by decide)⟩

/-! ## C7: favorites scenario machinery -/

theorem set_favorite_eq_of_found (L : Ledger) (u g : Nat) (slug : String) (r : Recipe)
    (fav : Bool) (h : findRecipeBySlug L g slug = some r) :
    set_favorite L u g slug fav =
      .ok (upsertRating L u r.rid { rating := none, is_favorite := some fav }) := by
  unfold set_favorite
  rw [h]

theorem clear_favorite_eq_of_found (L : Ledger) (u g : Nat) (slug : String) (r : Recipe)
    (h : findRecipeBySlug L g slug = some r) :
    clear_favorite L u g slug =
      .ok (upsertRating L u r.rid { rating := none, is_favorite := some false }).1 := by
  unfold clear_favorite
  rw [h]

theorem proj_filter_map (u : Nat) (f : RatingRow → RatingRow)
    (hu : ∀ x, (f x).userId = x.userId) (hr : ∀ x, (f x).recipeId = x.recipeId) :
    ∀ l : List RatingRow,
      ((l.map f).filter (fun row => row.userId == u)).map (fun row => row.recipeId) =
        (l.filter (fun row => row.userId == u)).map (fun row => row.recipeId)
  | [] => rfl
  | x :: xs => by
    by_cases hx : (x.userId == u) = true
    · simp only [List.map_cons, List.filter_cons, hu, hx, if_true, List.map_cons, hr,
        proj_filter_map u f hu hr xs]
    · simp only [List.map_cons, List.filter_cons, hu, hx, if_false, Bool.false_eq_true,
        proj_filter_map u f hu hr xs]

theorem upsert_fav_keys (u rid : Nat) (fav : Bool) (x : RatingRow) :
    ((if x.userId == u && x.recipeId == rid then
        applyPatch x { rating := none, is_favorite := some fav } else x).userId = x.userId) ∧
    ((if x.userId == u && x.recipeId == rid then
        applyPatch x { rating := none, is_favorite := some fav } else x).recipeId
      = x.recipeId) := by
  by_cases hx : (x.userId == u && x.recipeId == rid) = true
  · simp [hx, applyPatch]
  · simp [hx]

theorem upsert_set_fav (L : Ledger) (u rid : Nat) (favs present : List Nat)
    (h : UserRowsOK L u favs present) :
    UserRowsOK (upsertRating L u rid { rating := none, is_favorite := some true }).1 u
      (rid :: favs) (rid :: present) := by
  obtain ⟨hfav, hpres, hnod⟩ := h
  unfold upsertRating
  cases hf : findRating L u rid with
  | none =>
    have hnomem : ∀ x ∈ L.ratings, ¬(x.userId = u ∧ x.recipeId = rid) := by
      intro x hx hand
      have := List.find?_eq_none.mp hf x hx
      simp [hand.1, hand.2] at this
    refine ⟨?_, ?_, ?_⟩
    · intro row hrow hus
      rcases List.mem_cons.mp hrow with hEq | hmem
      · subst hEq
        simp [applyPatch, newRow]
      · have hiff := hfav row hmem hus
        constructor
        · intro ht
          exact List.mem_cons_of_mem _ (hiff.mp ht)
        · intro ht
          rcases List.mem_cons.mp ht with h1 | h1
          · exact absurd ⟨hus, h1⟩ (hnomem row hmem)
          · exact hiff.mpr h1
    · intro rid2 hrid2
      rcases List.mem_cons.mp hrid2 with hEq | hmem
      · subst rid2
        exact ⟨applyPatch (newRow u rid) { rating := none, is_favorite := some true },
          List.mem_cons_self .., rfl, rfl⟩
      · obtain ⟨row, hm, hu2, hr2⟩ := hpres rid2 hmem
        exact ⟨row, List.mem_cons_of_mem _ hm, hu2, hr2⟩
    · show ((List.filter (fun row => row.userId == u)
          (applyPatch (newRow u rid) { rating := none, is_favorite := some true }
            :: L.ratings)).map (fun row => row.recipeId)).Nodup
      rw [List.filter_cons]
      simp only [applyPatch, newRow, beq_self_eq_true, if_true, List.map_cons]
      refine List.nodup_cons.mpr ⟨?_, hnod⟩
      intro hmem
      rcases List.mem_map.mp hmem with ⟨row, hrow, hrid⟩
      rcases List.mem_filter.mp hrow with ⟨hm, hp⟩
      exact hnomem row hm ⟨by simpa using hp, hrid⟩
  | some row0 =>
    have hkeys := upsert_fav_keys u rid true
    refine ⟨?_, ?_, ?_⟩
    · intro row hrow hus
      rcases List.mem_map.mp hrow with ⟨y, hy, hEq⟩
      by_cases hq : (y.userId == u && y.recipeId == rid) = true
      · have hyrid : y.recipeId = rid := by
          have := (Bool.and_eq_true ..).mp hq
          simpa using this.2
        rw [← hEq, if_pos hq]
        simp [applyPatch, hyrid]
      · have hyy : row = y := by rw [← hEq]; simp [hq]
        subst hyy
        have hyrid : row.recipeId ≠ rid := by
          intro hcon
          apply hq
          simp [hus, hcon]
        have hiff := hfav row hy hus
        constructor
        · intro ht
          exact List.mem_cons_of_mem _ (hiff.mp ht)
        · intro ht
          rcases List.mem_cons.mp ht with h1 | h1
          · exact absurd h1 hyrid
          · exact hiff.mpr h1
    · intro rid2 hrid2
      rcases List.mem_cons.mp hrid2 with hEq | hmem
      · subst rid2
        have hmem0 : row0 ∈ L.ratings := List.mem_of_find?_eq_some hf
        have hfs := List.find?_some (show List.find?
          (fun row => row.userId == u && row.recipeId == rid) L.ratings
          = some row0 from hf)
        have hq0 : (row0.userId == u && row0.recipeId == rid) = true := hfs
        have hq0' := (Bool.and_eq_true ..).mp hq0
        refine ⟨applyPatch row0 { rating := none, is_favorite := some true }, ?_, ?_, ?_⟩
        · have := List.mem_map_of_mem (fun x =>
            if x.userId == u && x.recipeId == rid then
              applyPatch x { rating := none, is_favorite := some true } else x) hmem0
          simpa [hq0] using this
        · show row0.userId = u
          simpa using hq0'.1
        · show row0.recipeId = rid
          simpa using hq0'.2
      · obtain ⟨row, hm, hu2, hr2⟩ := hpres rid2 hmem
        refine ⟨(if row.userId == u && row.recipeId == rid then
            applyPatch row { rating := none, is_favorite := some true } else row),
          List.mem_map_of_mem _ hm, ?_, ?_⟩
        · rw [(hkeys row).1]; exact hu2
        · rw [(hkeys row).2]; exact hr2
    · show ((List.filter (fun row => row.userId == u)
          (L.ratings.map (fun x => if x.userId == u && x.recipeId == rid then
            applyPatch x { rating := none, is_favorite := some true } else x))).map
          (fun row => row.recipeId)).Nodup
      rw [proj_filter_map u _ (fun x => (hkeys x).1) (fun x => (hkeys x).2) L.ratings]
      exact hnod

theorem upsert_clear_fav (L : Ledger) (u rid : Nat) (favs present : List Nat)
    (h : UserRowsOK L u favs present) :
    UserRowsOK (upsertRating L u rid { rating := none, is_favorite := some false }).1 u
      (favs.filter (fun x => !(x == rid))) present := by
  obtain ⟨hfav, hpres, hnod⟩ := h
  have hmemfilter : ∀ x : Nat, x ∈ favs.filter (fun x => !(x == rid)) ↔ (x ∈ favs ∧ x ≠ rid) := by
    intro x
    simp [List.mem_filter]
  unfold upsertRating
  cases hf : findRating L u rid with
  | none =>
    have hnomem : ∀ x ∈ L.ratings, ¬(x.userId = u ∧ x.recipeId = rid) := by
      intro x hx hand
      have := List.find?_eq_none.mp hf x hx
      simp [hand.1, hand.2] at this
    refine ⟨?_, ?_, ?_⟩
    · intro row hrow hus
      rcases List.mem_cons.mp hrow with hEq | hmem
      · subst hEq
        simp only [applyPatch, newRow]
        constructor
        · intro ht
          exact absurd ht (by simp)
        · intro ht
          simp only [newRow] at ht
          exact absurd rfl ((hmemfilter rid).mp ht).2
      · have hiff := hfav row hmem hus
        have hne : row.recipeId ≠ rid := fun hcon => hnomem row hmem ⟨hus, hcon⟩
        rw [hiff, hmemfilter]
        exact ⟨fun hm => ⟨hm, hne⟩, fun hm => hm.1⟩
    · intro rid2 hmem
      obtain ⟨row, hm, hu2, hr2⟩ := hpres rid2 hmem
      exact ⟨row, List.mem_cons_of_mem _ hm, hu2, hr2⟩
    · show ((List.filter (fun row => row.userId == u)
          (applyPatch (newRow u rid) { rating := none, is_favorite := some false }
            :: L.ratings)).map (fun row => row.recipeId)).Nodup
      rw [List.filter_cons]
      simp only [applyPatch, newRow, beq_self_eq_true, if_true, List.map_cons]
      refine List.nodup_cons.mpr ⟨?_, hnod⟩
      intro hmem
      rcases List.mem_map.mp hmem with ⟨row, hrow, hrid⟩
      rcases List.mem_filter.mp hrow with ⟨hm, hp⟩
      exact hnomem row hm ⟨by simpa using hp, hrid⟩
  | some row0 =>
    have hkeys := upsert_fav_keys u rid false
    refine ⟨?_, ?_, ?_⟩
    · intro row hrow hus
      rcases List.mem_map.mp hrow with ⟨y, hy, hEq⟩
      by_cases hq : (y.userId == u && y.recipeId == rid) = true
      · have hyrid : y.recipeId = rid := by
          have := (Bool.and_eq_true ..).mp hq
          simpa using this.2
        rw [← hEq, if_pos hq]
        simp only [applyPatch]
        constructor
        · intro ht
          exact absurd ht (by simp)
        · intro ht
          have := (hmemfilter y.recipeId).mp (by simpa using ht)
          exact absurd hyrid this.2
      · have hyy : row = y := by rw [← hEq]; simp [hq]
        subst hyy
        have hyrid : row.recipeId ≠ rid := by
          intro hcon
          apply hq
          simp [hus, hcon]
        have hiff := hfav row hy hus
        rw [hiff, hmemfilter]
        exact ⟨fun hm => ⟨hm, hyrid⟩, fun hm => hm.1⟩
    · intro rid2 hmem
      obtain ⟨row, hm, hu2, hr2⟩ := hpres rid2 hmem
      refine ⟨(if row.userId == u && row.recipeId == rid then
          applyPatch row { rating := none, is_favorite := some false } else row),
        List.mem_map_of_mem _ hm, ?_, ?_⟩
      · rw [(hkeys row).1]; exact hu2
      · rw [(hkeys row).2]; exact hr2
    · show ((List.filter (fun row => row.userId == u)
          (L.ratings.map (fun x => if x.userId == u && x.recipeId == rid then
            applyPatch x { rating := none, is_favorite := some false } else x))).map
          (fun row => row.recipeId)).Nodup
      rw [proj_filter_map u _ (fun x => (hkeys x).1) (fun x => (hkeys x).2) L.ratings]
      exact hnod

theorem favoriteAll_ok (u g : Nat) :
    ∀ (rs : List Recipe) (L : Ledger) (favs present : List Nat),
      (∀ r ∈ rs, findRecipeBySlug L g r.slug = some r) →
      UserRowsOK L u favs present →
      ∃ L1, favoriteAll u g L (rs.map (fun r => r.slug)) = .ok L1 ∧
        L1.recipes = L.recipes ∧
        ∃ favs1 present1, UserRowsOK L1 u favs1 present1 ∧
          (∀ x, x ∈ favs1 ↔ (x ∈ favs ∨ ∃ r ∈ rs, r.rid = x)) ∧
          (∀ x, x ∈ present1 ↔ (x ∈ present ∨ ∃ r ∈ rs, r.rid = x))
  | [], L, favs, present, _, h => ⟨L, rfl, rfl, favs, present, h, by simp, by simp⟩
  | r :: rest, L, favs, present, hrs, h => by
    have hr : findRecipeBySlug L g r.slug = some r := hrs r (by simp)
    have hstep := upsert_set_fav L u r.rid favs present h
    have hrec : (upsertRating L u r.rid { rating := none, is_favorite := some true }).1.recipes
        = L.recipes := upsert_recipes ..
    have hrs2 : ∀ r2 ∈ rest, findRecipeBySlug
        (upsertRating L u r.rid { rating := none, is_favorite := some true }).1 g r2.slug
        = some r2 := by
      intro r2 hr2
      have heqf : findRecipeBySlug
          (upsertRating L u r.rid { rating := none, is_favorite := some true }).1 g r2.slug
          = findRecipeBySlug L g r2.slug := by
        unfold findRecipeBySlug
        rw [hrec]
      rw [heqf]
      exact hrs r2 (by simp [hr2])
    obtain ⟨L1, hall, hrec1, favs1, present1, hok1, hf1, hp1⟩ :=
      favoriteAll_ok u g rest
        (upsertRating L u r.rid { rating := none, is_favorite := some true }).1
        (r.rid :: favs) (r.rid :: present) hrs2 hstep
    have hstep_eq : favoriteAll u g L (List.map (fun r => r.slug) (r :: rest)) =
        favoriteAll u g (upsertRating L u r.rid { rating := none, is_favorite := some true }).1
          (List.map (fun r => r.slug) rest) := by
      rw [List.map_cons]
      simp only [favoriteAll]
      rw [set_favorite_eq_of_found L u g r.slug r true hr]
    refine ⟨L1, by rw [hstep_eq]; exact hall, by rw [hrec1, hrec], favs1, present1, hok1,
      ?_, ?_⟩
    · intro x
      rw [hf1 x]
      constructor
      · rintro (h1 | h1)
        · rcases List.mem_cons.mp h1 with h2 | h2
          · exact Or.inr ⟨r, by simp, h2.symm⟩
          · exact Or.inl h2
        · obtain ⟨r2, hm2, hrid2⟩ := h1
          exact Or.inr ⟨r2, by simp [hm2], hrid2⟩
      · rintro (h1 | h1)
        · exact Or.inl (List.mem_cons_of_mem _ h1)
        · obtain ⟨r2, hm2, hrid2⟩ := h1
          rcases List.mem_cons.mp hm2 with h3 | h3
          · subst h3
            exact Or.inl (by simp [hrid2.symm])
          · exact Or.inr ⟨r2, h3, hrid2⟩
    · intro x
      rw [hp1 x]
      constructor
      · rintro (h1 | h1)
        · rcases List.mem_cons.mp h1 with h2 | h2
          · exact Or.inr ⟨r, by simp, h2.symm⟩
          · exact Or.inl h2
        · obtain ⟨r2, hm2, hrid2⟩ := h1
          exact Or.inr ⟨r2, by simp [hm2], hrid2⟩
      · rintro (h1 | h1)
        · exact Or.inl (List.mem_cons_of_mem _ h1)
        · obtain ⟨r2, hm2, hrid2⟩ := h1
          rcases List.mem_cons.mp hm2 with h3 | h3
          · subst h3
            exact Or.inl (by simp [hrid2.symm])
          · exact Or.inr ⟨r2, h3, hrid2⟩

theorem unfavoriteAll_ok (u g : Nat) :
    ∀ (ts : List Recipe) (L : Ledger) (favs present : List Nat),
      (∀ t ∈ ts, findRecipeBySlug L g t.slug = some t) →
      UserRowsOK L u favs present →
      ∃ L2, unfavoriteAll u g L (ts.map (fun t => t.slug)) = .ok L2 ∧
        L2.recipes = L.recipes ∧
        ∃ favs2, UserRowsOK L2 u favs2 present ∧
          (∀ x, x ∈ favs2 ↔ (x ∈ favs ∧ ∀ t ∈ ts, x ≠ t.rid))
  | [], L, favs, present, _, h => ⟨L, rfl, rfl, favs, h, by simp⟩
  | t :: rest, L, favs, present, hts, h => by
    have ht : findRecipeBySlug L g t.slug = some t := hts t (by simp)
    have hstep := upsert_clear_fav L u t.rid favs present h
    have hrec : (upsertRating L u t.rid { rating := none, is_favorite := some false }).1.recipes
        = L.recipes := upsert_recipes ..
    have hts2 : ∀ t2 ∈ rest, findRecipeBySlug
        (upsertRating L u t.rid { rating := none, is_favorite := some false }).1 g t2.slug
        = some t2 := by
      intro t2 ht2
      have heqf : findRecipeBySlug
          (upsertRating L u t.rid { rating := none, is_favorite := some false }).1 g t2.slug
          = findRecipeBySlug L g t2.slug := by
        unfold findRecipeBySlug
        rw [hrec]
      rw [heqf]
      exact hts t2 (by simp [ht2])
    obtain ⟨L2, hall, hrec2, favs2, hok2, hf2⟩ :=
      unfavoriteAll_ok u g rest
        (upsertRating L u t.rid { rating := none, is_favorite := some false }).1
        (favs.filter (fun x => !(x == t.rid))) present hts2 hstep
    have hstep_eq : unfavoriteAll u g L (List.map (fun t => t.slug) (t :: rest)) =
        unfavoriteAll u g
          (upsertRating L u t.rid { rating := none, is_favorite := some false }).1
          (List.map (fun t => t.slug) rest) := by
      rw [List.map_cons]
      simp only [unfavoriteAll]
      rw [clear_favorite_eq_of_found L u g t.slug t ht]
    refine ⟨L2, by rw [hstep_eq]; exact hall, by rw [hrec2, hrec], favs2, hok2, ?_⟩
    intro x
    rw [hf2 x]
    simp only [List.mem_filter, List.mem_cons]
    constructor
    · rintro ⟨⟨h1, h2⟩, h3⟩
      have hxt : x ≠ t.rid := by simpa using h2
      refine ⟨h1, ?_⟩
      intro t2 ht2
      rcases ht2 with h4 | h4
      · subst h4; exact hxt
      · exact h3 t2 h4
    · rintro ⟨h1, h2⟩
      refine ⟨⟨h1, by simpa using h2 t (Or.inl rfl)⟩, ?_⟩
      intro t2 ht2
      exact h2 t2 (Or.inr ht2)

theorem favRecipeIds_char (L : Ledger) (u : Nat) (favs present : List Nat)
    (h : UserRowsOK L u favs present) (hsub : ∀ x ∈ favs, x ∈ present) :
    (∀ x, x ∈ favRecipeIds L u ↔ x ∈ favs) ∧ (favRecipeIds L u).Nodup := by
  obtain ⟨hfav, hpres, hnod⟩ := h
  constructor
  · intro x
    constructor
    · intro hx
      rcases List.mem_map.mp hx with ⟨row, hrow, hrid⟩
      rcases List.mem_filter.mp hrow with ⟨hmem, hp⟩
      have hp2 : row.userId = u ∧ row.is_favorite = true := by
        simpa using hp
      subst hrid
      exact (hfav row hmem hp2.1).mp hp2.2
    · intro hx
      obtain ⟨row, hmem, hu2, hrid⟩ := hpres x (hsub x hx)
      apply List.mem_map.mpr
      refine ⟨row, List.mem_filter.mpr ⟨hmem, ?_⟩, hrid⟩
      have hfavtrue : row.is_favorite = true := (hfav row hmem hu2).mpr (by rw [hrid]; exact hx)
      simp [hu2, hfavtrue]
  · have heq : list_ratings L u true = (rowsFor L u).filter (fun row => row.is_favorite) := by
      unfold list_ratings rowsFor
      rw [List.filter_filter]
      apply List.filter_congr
      intro a _
      simp [Bool.and_comm]
    show ((list_ratings L u true).map (fun row => row.recipeId)).Nodup
    rw [heq]
    exact hnod.sublist ((List.filter_sublist (rowsFor L u)).map (fun row => row.recipeId))

/-- C7: starting from a user with no favorites (every existing row of the user
is non-favorite and there is at most one row per recipe), favoriting the
recipes `rs` makes the favorites listing report exactly `rs.length` entries
whose recipe-id set is that of `rs`; then removing the favorites of the three
recipes `ts` leaves exactly `rs.length - 3` entries whose recipe-id set is
that of `rs` minus that of `ts`. -/
theorem favorites_scenario (L0 : Ledger) (u g : Nat) (rs ts : List Recipe)
    (h0fav : ∀ row ∈ L0.ratings, row.userId = u → row.is_favorite = false)
    (h0nod : ((rowsFor L0 u).map (fun row => row.recipeId)).Nodup)
    (hrs : ∀ r ∈ rs, findRecipeBySlug L0 g r.slug = some r)
    (hnodrs : (rs.map (fun r => r.rid)).Nodup)
    (hts : ∀ t ∈ ts, t ∈ rs)
    (hnodts : (ts.map (fun t => t.rid)).Nodup)
    (htlen : ts.length = 3) :
    ∃ L1, favoriteAll u g L0 (rs.map (fun r => r.slug)) = .ok L1 ∧
      (favRecipeIds L1 u).length = rs.length ∧
      (favRecipeIds L1 u).toFinset = (rs.map (fun r => r.rid)).toFinset ∧
      ∃ L2, unfavoriteAll u g L1 (ts.map (fun t => t.slug)) = .ok L2 ∧
        (favRecipeIds L2 u).length = rs.length - 3 ∧
        (favRecipeIds L2 u).toFinset =
          (rs.map (fun r => r.rid)).toFinset \ (ts.map (fun t => t.rid)).toFinset := by
  have h0 : UserRowsOK L0 u [] [] := by
    refine ⟨?_, by simp, h0nod⟩
    intro row hm hu2
    simp [h0fav row hm hu2]
  obtain ⟨L1, hall1, hrec1, favs1, present1, hok1, hf1, hp1⟩ :=
    favoriteAll_ok u g rs L0 [] [] hrs h0
  have hsub1 : ∀ x ∈ favs1, x ∈ present1 := by
    intro x hx
    rw [hp1 x]
    rw [hf1 x] at hx
    exact hx
  obtain ⟨hchar1, hnod1⟩ := favRecipeIds_char L1 u favs1 present1 hok1 hsub1
  have hmem1 : ∀ x, x ∈ favRecipeIds L1 u ↔ x ∈ rs.map (fun r => r.rid) := by
    intro x
    rw [hchar1 x, hf1 x]
    simp [List.mem_map, eq_comm]
  have hfin1 : (favRecipeIds L1 u).toFinset = (rs.map (fun r => r.rid)).toFinset := by
    apply Finset.ext
    intro x
    simp only [List.mem_toFinset]
    exact hmem1 x
  have hlen1 : (favRecipeIds L1 u).length = rs.length := by
    rw [← List.toFinset_card_of_nodup hnod1, hfin1,
      List.toFinset_card_of_nodup hnodrs, List.length_map]
  have hts1 : ∀ t ∈ ts, findRecipeBySlug L1 g t.slug = some t := by
    intro t ht2
    have heqf : findRecipeBySlug L1 g t.slug = findRecipeBySlug L0 g t.slug := by
      unfold findRecipeBySlug
      rw [hrec1]
    rw [heqf]
    exact hrs t (hts t ht2)
  obtain ⟨L2, hall2, hrec2, favs2, hok2, hf2⟩ :=
    unfavoriteAll_ok u g ts L1 favs1 present1 hts1 hok1
  have hsub2 : ∀ x ∈ favs2, x ∈ present1 := by
    intro x hx
    exact hsub1 x ((hf2 x).mp hx).1
  obtain ⟨hchar2, hnod2⟩ := favRecipeIds_char L2 u favs2 present1 hok2 hsub2
  have hmem2 : ∀ x, x ∈ favRecipeIds L2 u ↔
      (x ∈ rs.map (fun r => r.rid) ∧ x ∉ ts.map (fun t => t.rid)) := by
    intro x
    rw [hchar2 x, hf2 x, hf1 x]
    simp only [List.mem_nil_iff, false_or, List.mem_map]
    constructor
    · rintro ⟨⟨r2, hm2, hrid2⟩, hall⟩
      refine ⟨⟨r2, hm2, hrid2⟩, ?_⟩
      rintro ⟨t2, hmt2, hridt2⟩
      exact hall t2 hmt2 (by rw [hridt2])
    · rintro ⟨⟨r2, hm2, hrid2⟩, hnot⟩
      refine ⟨⟨r2, hm2, hrid2⟩, ?_⟩
      intro t2 hmt2 hcon
      exact hnot ⟨t2, hmt2, hcon.symm⟩
  have hfin2 : (favRecipeIds L2 u).toFinset =
      (rs.map (fun r => r.rid)).toFinset \ (ts.map (fun t => t.rid)).toFinset := by
    apply Finset.ext
    intro x
    simp only [List.mem_toFinset, Finset.mem_sdiff]
    exact hmem2 x
  have hBsubA : (ts.map (fun t => t.rid)).toFinset ⊆ (rs.map (fun r => r.rid)).toFinset := by
    intro x hx
    simp only [List.mem_toFinset, List.mem_map] at hx ⊢
    obtain ⟨t2, hmt2, hrid2⟩ := hx
    exact ⟨t2, hts t2 hmt2, hrid2⟩
  have hlen2 : (favRecipeIds L2 u).length = rs.length - 3 := by
    rw [← List.toFinset_card_of_nodup hnod2, hfin2, Finset.card_sdiff hBsubA,
      List.toFinset_card_of_nodup hnodrs, List.toFinset_card_of_nodup hnodts,
      List.length_map, List.length_map, htlen]
  exact ⟨L1, hall1, hlen1, hfin1, L2, hall2, hlen2, hfin2⟩

theorem favorites_scenario_witness :
    ∃ L1, favoriteAll 7 0 (⟨([⟨1, "a", 0, "a"⟩, ⟨2, "b", 0, "b"⟩, ⟨3, "c", 0, "c"⟩,
        ⟨4, "d", 0, "d"⟩, ⟨5, "e", 0, "e"⟩] : List Recipe), []⟩ : Ledger)
      (([⟨1, "a", 0, "a"⟩, ⟨2, "b", 0, "b"⟩, ⟨3, "c", 0, "c"⟩, ⟨4, "d", 0, "d"⟩,
        ⟨5, "e", 0, "e"⟩] : List Recipe).map (fun r => r.slug)) = .ok L1 ∧
      (favRecipeIds L1 7).length = ([⟨1, "a", 0, "a"⟩, ⟨2, "b", 0, "b"⟩, ⟨3, "c", 0, "c"⟩,
        ⟨4, "d", 0, "d"⟩, ⟨5, "e", 0, "e"⟩] : List Recipe).length ∧
      (favRecipeIds L1 7).toFinset = (([⟨1, "a", 0, "a"⟩, ⟨2, "b", 0, "b"⟩,
        ⟨3, "c", 0, "c"⟩, ⟨4, "d", 0, "d"⟩, ⟨5, "e", 0, "e"⟩] : List Recipe).map
        (fun r => r.rid)).toFinset ∧
      ∃ L2, unfavoriteAll 7 0 L1
          (([⟨2, "b", 0, "b"⟩, ⟨3, "c", 0, "c"⟩, ⟨5, "e", 0, "e"⟩] : List Recipe).map
            (fun t => t.slug)) = .ok L2 ∧
        (favRecipeIds L2 7).length = ([⟨1, "a", 0, "a"⟩, ⟨2, "b", 0, "b"⟩, ⟨3, "c", 0, "c"⟩,
          ⟨4, "d", 0, "d"⟩, ⟨5, "e", 0, "e"⟩] : List Recipe).length - 3 ∧
        (favRecipeIds L2 7).toFinset =
          (([⟨1, "a", 0, "a"⟩, ⟨2, "b", 0, "b"⟩, ⟨3, "c", 0, "c"⟩, ⟨4, "d", 0, "d"⟩,
            ⟨5, "e", 0, "e"⟩] : List Recipe).map (fun r => r.rid)).toFinset \
          (([⟨2, "b", 0, "b"⟩, ⟨3, "c", 0, "c"⟩, ⟨5, "e", 0, "e"⟩] : List Recipe).map
            (fun t => t.rid)).toFinset := by
  exact favorites_scenario (⟨([⟨1, "a", 0, "a"⟩, ⟨2, "b", 0, "b"⟩, ⟨3, "c", 0, "c"⟩,
      ⟨4, "d", 0, "d"⟩, ⟨5, "e", 0, "e"⟩] : List Recipe), []⟩ : Ledger) 7 0
    ([⟨1, "a", 0, "a"⟩, ⟨2, "b", 0, "b"⟩, ⟨3, "c", 0, "c"⟩, ⟨4, "d", 0, "d"⟩,
      ⟨5, "e", 0, "e"⟩] : List Recipe)
    ([⟨2, "b", 0, "b"⟩, ⟨3, "c", 0, "c"⟩, ⟨5, "e", 0, "e"⟩] : List Recipe)
    (by simp) (by simp [rowsFor]) (by decide) (by decide) (by decide) (by decide) rfl

end Mealie
